import Mathlib

/-!
Verification of the Emergence world-generation core against its source.

The embedding follows the repository sources:
* `src/asm-lib/src/generation.rs` — `GenerationConfig::new`, `generate_terrain`,
  `generate_entities`;
* `src/emergence_lib/src/terrain/mod.rs` — `MapGeometry`, `TerrainType`,
  `TerrainType::create_entity`, `TerrainType::choose_random`.

Parts of the repository referenced by `generation.rs` are not shipped with it
(`crate::utils::Position::hexagon`, the `crate::config` constants, and the
`rand` sampling internals behind the injectable randomness boundary); those
definitions are modelled from the specification and are marked as such in
their doc comments.
-/

/-- Axial hex coordinate, as in `crate::utils::Position` (fields `alpha`,
`beta` visible at the construction sites in `generation.rs`). -/
structure Position where
  alpha : Int
  beta : Int
deriving DecidableEq

/-- Modelled from the spec: the standard axial hex distance of section 4.1,
`dist(a,b) = (|da| + |db| + |da+db|) / 2` (the `Position` arithmetic lives in
`crate::utils`, which is not among the shipped sources). -/
def hexDist (a b : Position) : Nat :=
  ((a.alpha - b.alpha).natAbs + (a.beta - b.beta).natAbs
    + (a.alpha - b.alpha + (a.beta - b.beta)).natAbs) / 2

/-- One row of constant `alpha`-offset `da` of the filled hexagon: the `beta`
offsets run from `max (-r) (-da - r)` upward, `2*r + 1 - |da|` of them. -/
def hexRow (center : Position) (radius : Nat) (da : Int) : List Position :=
  let lo : Int := if da < 0 then -da - (radius : Int) else -(radius : Int)
  (List.range (2 * radius + 1 - da.natAbs)).map fun (j : Nat) =>
    ⟨center.alpha + da, center.beta + lo + (j : Int)⟩

/-- Modelled from the spec: `Position::hexagon(center, radius)` (defined in
`crate::utils`, not among the shipped sources) returns every axial coordinate
whose hex distance from `center` is at most `radius`, row by row in `alpha`
order. -/
def Position.hexagon (center : Position) (radius : Nat) : List Position :=
  (List.range (2 * radius + 1)).flatMap fun (i : Nat) =>
    hexRow center radius ((i : Int) - radius)

/-- Length of the row of the filled hexagon at row index `i` (so
`da = i - radius`). -/
def rowLen (r i : Nat) : Nat := 2 * r + 1 - ((i : Int) - r).natAbs

theorem sum_map_add_const (l : List Nat) (f : Nat → Nat) (c : Nat) :
    (l.map fun i => f i + c).sum = (l.map f).sum + c * l.length := by
  induction l with
  | nil => simp
  | cons a t ih => simp [ih]; ring

theorem sum_rowLen (r : Nat) :
    ((List.range (2 * r + 1)).map (rowLen r)).sum = 3 * r ^ 2 + 3 * r + 1 := by
  induction r with
  | zero => decide
  | succ r ih =>
    have h1 : 2 * (r + 1) + 1 = (2 * r + 2) + 1 := by ring
    rw [h1, List.range_succ, List.range_succ_eq_map]
    rw [List.map_append, List.sum_append, List.map_cons, List.sum_cons,
      List.map_map]
    have h2 : ((List.range (2 * r + 1)).map ((rowLen (r + 1)) ∘ (· + 1))).sum
        = ((List.range (2 * r + 1)).map (fun i => rowLen r i + 2)).sum := by
      apply congrArg
      apply List.map_congr_left
      intro i hi
      rw [List.mem_range] at hi
      simp only [Function.comp]
      unfold rowLen
      push_cast
      omega
    rw [h2, sum_map_add_const, ih]
    have h3 : rowLen (r + 1) 0 = r + 2 := by unfold rowLen; push_cast; omega
    have h4 : rowLen (r + 1) (2 * r + 2) = r + 2 := by
      unfold rowLen; push_cast; omega
    simp only [List.map_cons, List.sum_cons, List.length_range, List.map_nil,
      List.sum_nil, h3, h4]
    ring

theorem hexRow_length (c : Position) (r : Nat) (da : Int) :
    (hexRow c r da).length = 2 * r + 1 - da.natAbs := by
  simp [hexRow]

theorem hexagon_length (c : Position) (r : Nat) :
    (Position.hexagon c r).length = 3 * r ^ 2 + 3 * r + 1 := by
  unfold Position.hexagon
  rw [List.length_flatMap]
  rw [show List.length ∘ (fun (i : Nat) => hexRow c r ((i : Int) - r))
      = rowLen r from ?_]
  · exact sum_rowLen r
  · funext i
    simp only [Function.comp_apply, hexRow_length]
    rfl

theorem mem_hexRow {c : Position} {r : Nat} {da : Int} {p : Position} :
    p ∈ hexRow c r da ↔ ∃ j : Nat, j < 2 * r + 1 - da.natAbs ∧
      p.alpha = c.alpha + da ∧
      p.beta = c.beta + (if da < 0 then -da - (r : Int) else -(r : Int))
        + (j : Int) := by
  simp only [hexRow, List.mem_map, List.mem_range]
  constructor
  · rintro ⟨j, hj, rfl⟩
    exact ⟨j, hj, rfl, rfl⟩
  · rintro ⟨j, hj, h1, h2⟩
    refine ⟨j, hj, ?_⟩
    rcases p with ⟨a, b⟩
    simp_all

theorem mem_hexagon (c : Position) (r : Nat) (p : Position) :
    p ∈ Position.hexagon c r ↔ hexDist c p ≤ r := by
  unfold Position.hexagon
  rw [List.mem_flatMap]
  constructor
  · rintro ⟨i, hi, hp⟩
    rw [List.mem_range] at hi
    rw [mem_hexRow] at hp
    rcases hp with ⟨j, hj, h1, h2⟩
    unfold hexDist
    rcases p with ⟨a, b⟩
    rcases c with ⟨ca, cb⟩
    simp only at h1 h2 ⊢
    split at h2 <;> omega
  · intro h
    unfold hexDist at h
    rcases p with ⟨a, b⟩
    rcases c with ⟨ca, cb⟩
    simp only at h ⊢
    refine ⟨((a - ca) + r).toNat, ?_, ?_⟩
    · rw [List.mem_range]; omega
    · rw [mem_hexRow]
      refine ⟨(b - cb - (if ((((a - ca) + r).toNat : Int) - r) < 0
          then -((((a - ca) + r).toNat : Int) - r) - (r : Int)
          else -(r : Int))).toNat, ?_, ?_, ?_⟩
      · split <;> omega
      · simp only; omega
      · simp only
        split <;> omega

theorem hexRow_nodup (c : Position) (r : Nat) (da : Int) :
    (hexRow c r da).Nodup := by
  unfold hexRow
  apply List.Nodup.map
  · intro j1 j2 h
    simp only [Position.mk.injEq] at h
    omega
  · exact List.nodup_range _

theorem hexagon_nodup (c : Position) (r : Nat) :
    (Position.hexagon c r).Nodup := by
  unfold Position.hexagon
  rw [List.nodup_flatMap]
  constructor
  · intro i _
    exact hexRow_nodup c r _
  · apply (List.pairwise_lt_range _).imp
    intro i1 i2 hlt p hp1 hp2
    rw [mem_hexRow] at hp1 hp2
    rcases hp1 with ⟨_, _, h1, _⟩
    rcases hp2 with ⟨_, _, h2, _⟩
    omega

theorem hexagon_zero (c : Position) : Position.hexagon c 0 = [c] := by
  rcases c with ⟨a, b⟩
  simp [Position.hexagon, hexRow, List.range_succ]

/-- Modelled from the spec (section 6): the injectable randomness source is a
stream of raw natural draws plus a cursor; a uniform draw over an index range
`n` consumes one stream element, reduced modulo `n`.  The `rand` crate
internals behind this boundary are not among the shipped sources. -/
structure Rng where
  stream : Nat → Nat
  cursor : Nat

/-- Modelled from the spec (section 4.4): sampling without replacement, as
performed by `SliceRandom::choose_multiple` behind the randomness boundary.
Each step draws a uniform index into the remaining candidates, emits that
entry and removes it; the draw stops early if the candidates run out. -/
def sampleWithoutReplacement : Rng → List Position → Nat → List Position × Rng
  | rng, _, 0 => ([], rng)
  | rng, xs, n + 1 =>
    if h : 0 < xs.length then
      let j := rng.stream rng.cursor % xs.length
      let rng1 : Rng := ⟨rng.stream, rng.cursor + 1⟩
      let p := sampleWithoutReplacement rng1 (xs.eraseIdx j) n
      (xs.get ⟨j, Nat.mod_lt _ h⟩ :: p.1, p.2)
    else ([], rng)

/-- Modelled from the spec: `choose_multiple(rng, amount)` returns the drawn
entries (the slice iterator is collected into a vector in
`generate_entities`). -/
def choose_multiple (rng : Rng) (xs : List Position) (amount : Nat) :
    List Position :=
  (sampleWithoutReplacement rng xs amount).1

/-- Configuration record from `generation.rs`. -/
structure GenerationConfig where
  map_size : Int
  n_ant : Nat
  n_plant : Nat
  n_fungi : Nat
deriving DecidableEq

/-- Embeds `GenerationConfig::new` from `generation.rs`: it asserts
`(N_ANT + N_PLANT + N_FUNGI) <= (MAP_SIZE * MAP_SIZE).try_into().unwrap()`.
The `crate::config` constants are not among the shipped sources, so per the
spec (section 6) the configuration input is supplied as arguments; `none`
models the assertion failure. -/
def GenerationConfig.new (map_size : Int) (n_ant n_plant n_fungi : Nat) :
    Option GenerationConfig :=
  if n_ant + n_plant + n_fungi ≤ (map_size * map_size).toNat then
    some ⟨map_size, n_ant, n_plant, n_fungi⟩
  else none

/-- Terrain variants from `emergence_lib/src/terrain/mod.rs`, in declaration
order. -/
inductive TerrainType where
  | Plain
  | Impassable
  | High
deriving DecidableEq

/-- The derived `IterableEnum` enumeration of `TerrainType`, in declaration
order. -/
def TerrainType.variants : List TerrainType := [.Plain, .Impassable, .High]

/-- Category marker attached by the generation systems in `generation.rs`
(`Tile {}`, `Unit {} + Ant {}`, `Structure {} + Plant {}`,
`Structure {} + Fungi {}`). -/
inductive EntityCategory where
  | Tile
  | Ant
  | Plant
  | Fungi
deriving DecidableEq

/-- Entity creation request (spec section 3): position, category marker and
optional terrain type, as handed to the entity-storage sink. -/
structure CreationRequest where
  position : Position
  category : EntityCategory
  terrain : Option TerrainType
deriving DecidableEq

/-- Embeds `generate_terrain` from `generation.rs`: after
`assert!(map_size > 0)` (failure modelled by `none`) it enumerates
`Position::hexagon(center, map_size)` with `center = (0, 0)` and spawns one
`Tile` entity per position, carrying the position and nothing else — no
terrain type is drawn anywhere in this system. -/
def generate_terrain (config : GenerationConfig) :
    Option (List CreationRequest) :=
  if 0 < config.map_size then
    some ((Position.hexagon ⟨0, 0⟩ config.map_size.toNat).map
      fun p => ⟨p, .Tile, none⟩)
  else none

/-- The three per-category position lists produced by `generate_entities`. -/
structure EntityPlacements where
  ants : List Position
  plants : List Position
  fungi : List Position
deriving DecidableEq

/-- Embeds the drawing and partitioning steps of `generate_entities`
(`generation.rs` lines 86-134): one `choose_multiple` draw of
`n_ant + n_plant + n_fungi` positions, then three
`split_off(len - n)` calls — the ant positions are split off the end of the
drawn vector, then the plant positions off the end of the remainder, then
the fungi positions off what is left. -/
def sample_unique (rng : Rng) (candidates : List Position)
    (n_ant n_plant n_fungi : Nat) : EntityPlacements :=
  let drawn := choose_multiple rng candidates (n_ant + n_plant + n_fungi)
  let ants := drawn.drop (drawn.length - n_ant)
  let rest1 := drawn.take (drawn.length - n_ant)
  let plants := rest1.drop (rest1.length - n_plant)
  let rest2 := rest1.take (rest1.length - n_plant)
  let fungi := rest2.drop (rest2.length - n_fungi)
  ⟨ants, plants, fungi⟩

/-- Embeds `generate_entities` from `generation.rs`: the candidate list is
`Position::hexagon((0,0), map_size)` and the counts come from the config. -/
def generate_entities (rng : Rng) (config : GenerationConfig) :
    EntityPlacements :=
  sample_unique rng (Position.hexagon ⟨0, 0⟩ config.map_size.toNat)
    config.n_ant config.n_plant config.n_fungi

/-- The all-zeros randomness stream, used to evaluate the sampler on concrete
inputs. -/
def rngZero : Rng := ⟨fun _ => 0, 0⟩

theorem get_not_mem_eraseIdx (xs : List Position) (j : Nat)
    (h : j < xs.length) (hnd : xs.Nodup) : xs.get ⟨j, h⟩ ∉ xs.eraseIdx j := by
  induction xs generalizing j with
  | nil => simp at h
  | cons a t ih =>
    cases j with
    | zero => simpa using (List.nodup_cons.mp hnd).1
    | succ j =>
      have h' : j < t.length := by simpa using h
      simp only [List.eraseIdx_cons_succ, List.get_cons_succ, List.mem_cons,
        not_or]
      refine ⟨?_, ih j h' (List.nodup_cons.mp hnd).2⟩
      intro heq
      exact (List.nodup_cons.mp hnd).1 (heq ▸ t.get_mem _ _)

theorem sampleWithoutReplacement_spec (n : Nat) :
    ∀ (rng : Rng) (xs : List Position),
    ((sampleWithoutReplacement rng xs n).1.length = min n xs.length) ∧
    (∀ p ∈ (sampleWithoutReplacement rng xs n).1, p ∈ xs) ∧
    (xs.Nodup → (sampleWithoutReplacement rng xs n).1.Nodup) := by
  induction n with
  | zero => intro rng xs; simp [sampleWithoutReplacement]
  | succ n ih =>
    intro rng xs
    by_cases h : 0 < xs.length
    · obtain ⟨ihlen, ihmem, ihnd⟩ :=
        ih ⟨rng.stream, rng.cursor + 1⟩
          (xs.eraseIdx (rng.stream rng.cursor % xs.length))
      have hj : rng.stream rng.cursor % xs.length < xs.length :=
        Nat.mod_lt _ h
      have herase : (xs.eraseIdx (rng.stream rng.cursor % xs.length)).length
          = xs.length - 1 := by
        rw [List.length_eraseIdx]
        simp [hj]
      have hsub : List.Sublist
          (xs.eraseIdx (rng.stream rng.cursor % xs.length)) xs :=
        List.eraseIdx_sublist ..
      simp only [sampleWithoutReplacement, dif_pos h]
      refine ⟨?_, ?_, ?_⟩
      · simp only [List.length_cons, ihlen, herase]
        omega
      · intro p hp
        rcases List.mem_cons.mp hp with hp | hp
        · exact hp ▸ xs.get_mem _ _
        · exact hsub.subset (ihmem p hp)
      · intro hnd
        rw [List.nodup_cons]
        refine ⟨?_, ihnd (hnd.sublist hsub)⟩
        intro hmem
        exact get_not_mem_eraseIdx xs _ hj hnd (ihmem _ hmem)
    · have hx : xs.length = 0 := by omega
      simp only [sampleWithoutReplacement, dif_neg h]
      simp [hx]

theorem choose_multiple_length (rng : Rng) (xs : List Position) (n : Nat) :
    (choose_multiple rng xs n).length = min n xs.length :=
  (sampleWithoutReplacement_spec n rng xs).1

theorem choose_multiple_subset (rng : Rng) (xs : List Position) (n : Nat) :
    ∀ p ∈ choose_multiple rng xs n, p ∈ xs :=
  (sampleWithoutReplacement_spec n rng xs).2.1

theorem choose_multiple_nodup (rng : Rng) (xs : List Position) (n : Nat)
    (hnd : xs.Nodup) : (choose_multiple rng xs n).Nodup :=
  (sampleWithoutReplacement_spec n rng xs).2.2 hnd

/-- C5: for every center and radius `r ≥ 0`, `hexagon(center, r)` returns
exactly `3*r^2 + 3*r + 1` coordinates, duplicate-free, namely exactly those
whose hex distance from the center is at most `r`; for `r = 0` it returns
exactly `[center]`. -/
theorem hexagon_spec (center : Position) (r : Nat) :
    (Position.hexagon center r).length = 3 * r ^ 2 + 3 * r + 1 ∧
    (Position.hexagon center r).Nodup ∧
    (∀ p, p ∈ Position.hexagon center r ↔ hexDist center p ≤ r) ∧
    Position.hexagon center 0 = [center] :=
  ⟨hexagon_length center r, hexagon_nodup center r,
    fun p => mem_hexagon center r p, hexagon_zero center⟩

theorem sample_unique_eq (rng : Rng) (cands : List Position) (nA nP nF : Nat)
    (hsum : nA + nP + nF ≤ cands.length) :
    sample_unique rng cands nA nP nF =
      ⟨(choose_multiple rng cands (nA + nP + nF)).drop (nP + nF),
       ((choose_multiple rng cands (nA + nP + nF)).drop nF).take nP,
       (choose_multiple rng cands (nA + nP + nF)).take nF⟩ := by
  have hlen : (choose_multiple rng cands (nA + nP + nF)).length
      = nA + nP + nF := by
    rw [choose_multiple_length]; omega
  unfold sample_unique
  simp only [hlen, List.length_take, List.length_drop]
  rw [show nA + nP + nF - nA = nP + nF by omega]
  rw [show min (nP + nF) (nA + nP + nF) - nP = nF by omega]
  rw [List.drop_take, List.take_take]
  rw [show nP + nF - nF = nP by omega, show min nF (nP + nF) = nF by omega]
  rw [show nF ⊓ ((nP + nF) ⊓ (nA + nP + nF)) - nF = 0 by omega]
  rw [List.drop_zero]

theorem take_drop_concat (d : List Position) (nF nP : Nat) :
    d.take nF ++ (((d.drop nF).take nP) ++ d.drop (nP + nF)) = d := by
  rw [show d.drop (nP + nF) = (d.drop nF).drop nP by
    rw [List.drop_drop]; ring_nf]
  rw [List.take_append_drop, List.take_append_drop]

/-- C2 counterexample: with `map_size = 1` the filled hexagon has
`3*1^2 + 3*1 + 1 = 7` tiles, yet requesting just 2 entities already fails
construction, because the source asserts against `MAP_SIZE * MAP_SIZE = 1`,
not against the hexagon tile count. -/
theorem GenerationConfig.new_cex :
    GenerationConfig.new 1 2 0 0 = none ∧
    2 + 0 + 0 ≤ (Position.hexagon ⟨0, 0⟩ 1).length := by decide

/-- C2 amended: `GenerationConfig` construction fails if and only if
`n_ant + n_plant + n_fungi` exceeds `map_size * map_size` (the square grid
count the source asserts against), not the hexagon tile count. -/
theorem GenerationConfig.new_iff (map_size : Int)
    (n_ant n_plant n_fungi : Nat) :
    (GenerationConfig.new map_size n_ant n_plant n_fungi).isSome
      ↔ n_ant + n_plant + n_fungi ≤ (map_size * map_size).toNat := by
  unfold GenerationConfig.new
  split <;> simp_all

/-- C3 counterexample: on a candidate list that itself contains a duplicate
position, the drawn positions are not pairwise distinct even though the
requested total does not exceed the candidate count. -/
theorem sample_unique_duplicates_cex :
    2 + 0 + 0 ≤ ([⟨0, 0⟩, ⟨0, 0⟩] : List Position).length ∧
    ¬ (sample_unique rngZero [⟨0, 0⟩, ⟨0, 0⟩] 2 0 0).ants.Nodup := by decide

/-- C3 amended: for every duplicate-free candidate list and every counts
triple with sum at most the candidate count, the placement sampling draws
exactly `n_ant`, `n_plant` and `n_fungi` positions per category, pairwise
distinct across all categories, each a member of the candidate list; for
counts `[0,0,0]` it yields empty partitions without error. -/
theorem sample_unique_spec :
    (∀ (rng : Rng) (cands : List Position) (nA nP nF : Nat),
      nA + nP + nF ≤ cands.length → cands.Nodup →
      (sample_unique rng cands nA nP nF).ants.length = nA ∧
      (sample_unique rng cands nA nP nF).plants.length = nP ∧
      (sample_unique rng cands nA nP nF).fungi.length = nF ∧
      ((sample_unique rng cands nA nP nF).fungi
        ++ ((sample_unique rng cands nA nP nF).plants
        ++ (sample_unique rng cands nA nP nF).ants)).Nodup ∧
      (∀ p, p ∈ (sample_unique rng cands nA nP nF).fungi
          ++ ((sample_unique rng cands nA nP nF).plants
          ++ (sample_unique rng cands nA nP nF).ants) → p ∈ cands)) ∧
    (∀ (rng : Rng) (cands : List Position),
      sample_unique rng cands 0 0 0 = ⟨[], [], []⟩) := by
  constructor
  · intro rng cands nA nP nF hsum hnd
    have hlen : (choose_multiple rng cands (nA + nP + nF)).length
        = nA + nP + nF := by
      rw [choose_multiple_length]; omega
    rw [sample_unique_eq rng cands nA nP nF hsum]
    have hconcat := take_drop_concat (choose_multiple rng cands (nA + nP + nF))
      nF nP
    refine ⟨?_, ?_, ?_, ?_, ?_⟩
    · simp only [List.length_drop, hlen]; omega
    · simp only [List.length_take, List.length_drop, hlen]; omega
    · simp only [List.length_take, hlen]; omega
    · simp only [hconcat]
      exact choose_multiple_nodup rng cands (nA + nP + nF) hnd
    · intro p hp
      rw [hconcat] at hp
      exact choose_multiple_subset rng cands (nA + nP + nF) p hp
  · intro rng cands
    simp [sample_unique, choose_multiple, sampleWithoutReplacement]

/-- C3 witness: the amended statement evaluated on a concrete duplicate-free
candidate list with counts `(1, 1, 1)`. -/
theorem sample_unique_spec_witness :
    (sample_unique rngZero [⟨0, 0⟩, ⟨1, 0⟩, ⟨0, 1⟩] 1 1 1).ants.length = 1 ∧
    (sample_unique rngZero [⟨0, 0⟩, ⟨1, 0⟩, ⟨0, 1⟩] 1 1 1).plants.length = 1 ∧
    (sample_unique rngZero [⟨0, 0⟩, ⟨1, 0⟩, ⟨0, 1⟩] 1 1 1).fungi.length = 1 ∧
    ((sample_unique rngZero [⟨0, 0⟩, ⟨1, 0⟩, ⟨0, 1⟩] 1 1 1).fungi
      ++ ((sample_unique rngZero [⟨0, 0⟩, ⟨1, 0⟩, ⟨0, 1⟩] 1 1 1).plants
      ++ (sample_unique rngZero [⟨0, 0⟩, ⟨1, 0⟩, ⟨0, 1⟩] 1 1 1).ants)).Nodup ∧
    (∀ p, p ∈ (sample_unique rngZero [⟨0, 0⟩, ⟨1, 0⟩, ⟨0, 1⟩] 1 1 1).fungi
        ++ ((sample_unique rngZero [⟨0, 0⟩, ⟨1, 0⟩, ⟨0, 1⟩] 1 1 1).plants
        ++ (sample_unique rngZero [⟨0, 0⟩, ⟨1, 0⟩, ⟨0, 1⟩] 1 1 1).ants)
      → p ∈ ([⟨0, 0⟩, ⟨1, 0⟩, ⟨0, 1⟩] : List Position)) :=
  sample_unique_spec.1 rngZero [⟨0, 0⟩, ⟨1, 0⟩, ⟨0, 1⟩] 1 1 1
    (by decide) (by decide)

/-- C4 counterexample: drawing from three candidates with counts
`(n_ant, n_plant, n_fungi) = (1, 1, 1)`, the drawn sequence is
`[(0,0), (1,0), (0,1)]` but the ants receive the last drawn position, not the
first as the claim states. -/
theorem sample_unique_order_cex :
    choose_multiple rngZero [⟨0, 0⟩, ⟨1, 0⟩, ⟨0, 1⟩] 3
        = [⟨0, 0⟩, ⟨1, 0⟩, ⟨0, 1⟩] ∧
    (sample_unique rngZero [⟨0, 0⟩, ⟨1, 0⟩, ⟨0, 1⟩] 1 1 1).ants = [⟨0, 1⟩] ∧
    (⟨0, 1⟩ : Position) ≠ ⟨0, 0⟩ := by decide

/-- C4 amended: the drawn sequence is partitioned into contiguous groups
matching the requested counts, but the categories take their groups from the
end of the drawn sequence in the order the counts are supplied: ants receive
the last `n_ant` drawn positions, plants the preceding `n_plant`, and fungi
the first `n_fungi`. -/
theorem sample_unique_partition (rng : Rng) (cands : List Position)
    (nA nP nF : Nat) (hsum : nA + nP + nF ≤ cands.length) :
    (sample_unique rng cands nA nP nF).ants
      = (choose_multiple rng cands (nA + nP + nF)).drop (nP + nF) ∧
    (sample_unique rng cands nA nP nF).plants
      = ((choose_multiple rng cands (nA + nP + nF)).drop nF).take nP ∧
    (sample_unique rng cands nA nP nF).fungi
      = (choose_multiple rng cands (nA + nP + nF)).take nF ∧
    (sample_unique rng cands nA nP nF).fungi
      ++ ((sample_unique rng cands nA nP nF).plants
      ++ (sample_unique rng cands nA nP nF).ants)
      = choose_multiple rng cands (nA + nP + nF) := by
  rw [sample_unique_eq rng cands nA nP nF hsum]
  exact ⟨rfl, rfl, rfl, take_drop_concat _ nF nP⟩

/-- C4 witness: the amended partition statement evaluated on a concrete
three-candidate list with counts `(1, 1, 1)`. -/
theorem sample_unique_partition_witness :
    (sample_unique rngZero [⟨0, 0⟩, ⟨1, 0⟩, ⟨0, 1⟩] 1 1 1).ants
      = (choose_multiple rngZero [⟨0, 0⟩, ⟨1, 0⟩, ⟨0, 1⟩] 3).drop 2 ∧
    (sample_unique rngZero [⟨0, 0⟩, ⟨1, 0⟩, ⟨0, 1⟩] 1 1 1).plants
      = ((choose_multiple rngZero [⟨0, 0⟩, ⟨1, 0⟩, ⟨0, 1⟩] 3).drop 1).take 1 ∧
    (sample_unique rngZero [⟨0, 0⟩, ⟨1, 0⟩, ⟨0, 1⟩] 1 1 1).fungi
      = (choose_multiple rngZero [⟨0, 0⟩, ⟨1, 0⟩, ⟨0, 1⟩] 3).take 1 ∧
    (sample_unique rngZero [⟨0, 0⟩, ⟨1, 0⟩, ⟨0, 1⟩] 1 1 1).fungi
      ++ ((sample_unique rngZero [⟨0, 0⟩, ⟨1, 0⟩, ⟨0, 1⟩] 1 1 1).plants
      ++ (sample_unique rngZero [⟨0, 0⟩, ⟨1, 0⟩, ⟨0, 1⟩] 1 1 1).ants)
      = choose_multiple rngZero [⟨0, 0⟩, ⟨1, 0⟩, ⟨0, 1⟩] 3 :=
  sample_unique_partition rngZero [⟨0, 0⟩, ⟨1, 0⟩, ⟨0, 1⟩] 1 1 1 (by decide)

/-- C1 counterexample: `generate_terrain` on a valid configuration emits
seven Tile requests and not a single one carries a terrain type — no
`TerrainType` is drawn by the terrain phase at all. -/
theorem generate_terrain_cex :
    ((generate_terrain ⟨1, 0, 0, 0⟩).getD []).length = 7 ∧
    ((generate_terrain ⟨1, 0, 0, 0⟩).getD []).filterMap
      (fun r => r.terrain) = [] := by decide

/-- C1 amended: for every position returned by
`hexagon(center, map_size)`, `generate_terrain` emits exactly one Tile
creation request carrying that position; it draws no `TerrainType`, and every
emitted request carries no terrain type (`TerrainType::choose_random` is
never invoked by this system). -/
theorem generate_terrain_spec (config : GenerationConfig)
    (h : 0 < config.map_size) :
    (generate_terrain config).isSome ∧
    ((generate_terrain config).getD []).map (fun r => r.position)
        = Position.hexagon ⟨0, 0⟩ config.map_size.toNat ∧
    (∀ r ∈ (generate_terrain config).getD [],
      r.category = EntityCategory.Tile ∧ r.terrain = none) := by
  unfold generate_terrain
  rw [if_pos h]
  refine ⟨rfl, ?_, ?_⟩
  · rw [Option.getD_some, List.map_map]
    rw [show ((fun (r : CreationRequest) => r.position)
        ∘ fun p => (⟨p, EntityCategory.Tile, none⟩ : CreationRequest)) = id
      from rfl]
    exact List.map_id _
  · intro r hr
    simp only [Option.getD_some, List.mem_map] at hr
    rcases hr with ⟨p, _, rfl⟩
    exact ⟨rfl, rfl⟩

/-- C1 witness: the amended statement evaluated at `map_size = 1`. -/
theorem generate_terrain_spec_witness :
    (generate_terrain ⟨1, 0, 0, 0⟩).isSome ∧
    ((generate_terrain ⟨1, 0, 0, 0⟩).getD []).map (fun r => r.position)
        = Position.hexagon ⟨0, 0⟩ (1 : Int).toNat ∧
    (∀ r ∈ (generate_terrain ⟨1, 0, 0, 0⟩).getD [],
      r.category = EntityCategory.Tile ∧ r.terrain = none) :=
  generate_terrain_spec ⟨1, 0, 0, 0⟩ (by decide)

/-- Unsigned 32-bit wrap-around: the arithmetic of the `u32` fields in
`terrain/mod.rs` (release semantics). -/
def u32 (n : Nat) : Nat := n % 4294967296

/-- Tile position (`bevy_ecs_tilemap::tiles::TilePos`), `u32` coordinates. -/
structure TilePos where
  x : Nat
  y : Nat
deriving DecidableEq

/-- Tilemap size (`bevy_ecs_tilemap::map::TilemapSize`), `u32` extents. -/
structure TilemapSize where
  x : Nat
  y : Nat
deriving DecidableEq

/-- The map-radius constant of `terrain/mod.rs`. -/
def MAP_RADIUS : Nat := 10

/-- Map geometry resource from `terrain/mod.rs`; the `size` and `center`
accessors of the source return the stored fields, embedded here as the
structure projections. -/
structure MapGeometry where
  radius : Nat
  center : TilePos
  size : TilemapSize
deriving DecidableEq

/-- Embeds `MapGeometry::new`: `center = (radius + 1, radius + 1)` and
`size = (2 * radius + 1, 2 * radius + 1)`, in `u32` arithmetic. -/
def MapGeometry.new (radius : Nat) : MapGeometry :=
  ⟨radius, ⟨u32 (radius + 1), u32 (radius + 1)⟩,
    ⟨u32 (2 * radius + 1), u32 (2 * radius + 1)⟩⟩

/-- Embeds `MapGeometry::diameter`: `2 * radius + 1` in `u32` arithmetic. -/
def MapGeometry.diameter (g : MapGeometry) : Nat := u32 (2 * g.radius + 1)

/-- C7: for every `u32` radius, `MapGeometry::new` succeeds with no fallible
path (it is a total function) and the constructed value satisfies
`size = (2r+1, 2r+1)` and `center = (r+1, r+1)`; `diameter()` returns
`2r+1` and `size()` returns `(diameter(), diameter())` — all in the
source's `u32` arithmetic. -/
theorem MapGeometry.new_spec (r : Nat) (_h : r < 4294967296) :
    (MapGeometry.new r).size = ⟨u32 (2 * r + 1), u32 (2 * r + 1)⟩ ∧
    (MapGeometry.new r).center = ⟨u32 (r + 1), u32 (r + 1)⟩ ∧
    (MapGeometry.new r).diameter = u32 (2 * r + 1) ∧
    (MapGeometry.new r).size
      = ⟨(MapGeometry.new r).diameter, (MapGeometry.new r).diameter⟩ :=
  ⟨rfl, rfl, rfl, rfl⟩

/-- C7 witness: the geometry contract evaluated at the source's default
radius `MAP_RADIUS = 10`. -/
theorem MapGeometry.new_spec_witness :
    (MapGeometry.new MAP_RADIUS).size
        = ⟨u32 (2 * MAP_RADIUS + 1), u32 (2 * MAP_RADIUS + 1)⟩ ∧
    (MapGeometry.new MAP_RADIUS).center
        = ⟨u32 (MAP_RADIUS + 1), u32 (MAP_RADIUS + 1)⟩ ∧
    (MapGeometry.new MAP_RADIUS).diameter = u32 (2 * MAP_RADIUS + 1) ∧
    (MapGeometry.new MAP_RADIUS).size
      = ⟨(MapGeometry.new MAP_RADIUS).diameter,
         (MapGeometry.new MAP_RADIUS).diameter⟩ :=
  MapGeometry.new_spec MAP_RADIUS (by decide)

/-- Zero-size terrain marker components from `terrain/mod.rs`
(`PlainTerrain`, `ImpassableTerrain`, `HighTerrain`). -/
inductive TerrainMarker where
  | PlainTerrain
  | ImpassableTerrain
  | HighTerrain
deriving DecidableEq

/-- The marker inserted by the `match self` arm of
`TerrainType::create_entity`. -/
def TerrainType.marker : TerrainType → TerrainMarker
  | .Plain => .PlainTerrain
  | .Impassable => .ImpassableTerrain
  | .High => .HighTerrain

/-- The components of the tile entity built by `TerrainType::create_entity`:
the tile bundle for the position plus the terrain marker components
inserted afterwards. -/
structure TileEntity where
  tile_pos : TilePos
  markers : List TerrainMarker
deriving DecidableEq

/-- Embeds `TerrainType::create_entity` from `terrain/mod.rs`: spawn an
empty entity, insert the tile bundle for `position`, then insert exactly
the one marker selected by matching on `self`. -/
def TerrainType.create_entity (t : TerrainType) (position : TilePos) :
    TileEntity :=
  ⟨position, [t.marker]⟩

/-- C9 counterexample: the tiles created by the `asm-lib` terrain phase
carry no terrain marker at all — all seven requests of a radius-1 run have
no terrain component, refuting "every tile entity created during terrain
generation carries exactly one terrain marker". -/
theorem tile_marker_cex :
    (((generate_terrain ⟨1, 0, 0, 0⟩).getD []).all
      fun r => decide (r.terrain = none)) = true ∧
    ((generate_terrain ⟨1, 0, 0, 0⟩).getD []).length = 7 := by decide

/-- C9 amended: every tile entity created by `TerrainType::create_entity`
carries exactly one terrain marker, namely the one matching the chosen
`TerrainType` variant (the correspondence is one-to-one); the tiles spawned
by the `asm-lib` `generate_terrain`, however, carry none. -/
theorem create_entity_one_marker (t : TerrainType) (pos : TilePos) :
    (t.create_entity pos).markers.length = 1 ∧
    (t.create_entity pos).markers = [t.marker] ∧
    (t.create_entity pos).tile_pos = pos ∧
    (∀ t2 : TerrainType, t2.marker = t.marker → t2 = t) := by
  refine ⟨rfl, rfl, rfl, ?_⟩
  intro t2 h
  cases t <;> cases t2 <;> simp_all [TerrainType.marker]

/-- C9 witness: the marker invariant evaluated at `Plain` and the origin
tile. -/
theorem create_entity_one_marker_witness :
    (TerrainType.Plain.create_entity ⟨0, 0⟩).markers.length = 1 ∧
    (TerrainType.Plain.create_entity ⟨0, 0⟩).markers
        = [TerrainType.Plain.marker] ∧
    (TerrainType.Plain.create_entity ⟨0, 0⟩).tile_pos = ⟨0, 0⟩ ∧
    (∀ t2 : TerrainType, t2.marker = TerrainType.Plain.marker →
      t2 = TerrainType.Plain) :=
  create_entity_one_marker TerrainType.Plain ⟨0, 0⟩

/-- Error type of weighted sampling
(`rand::distributions::WeightedError`). -/
inductive WeightedError where
  | NoItem
  | InvalidWeight
  | AllWeightsZero
  | TooMany
deriving DecidableEq

/-- Modelled from the spec (section 3): terrain weights are `f32` values;
the weights this core exercises are exact small constants, so they are
modelled as exact rationals together with a NaN marker (float rounding and
infinities are out of scope). -/
structure F32 where
  nan : Bool
  val : ℚ
deriving DecidableEq

/-- The `f32` comparison `w >= 0.0`: false for NaN and for negatives. -/
def F32.ge0 (w : F32) : Bool := !w.nan && decide (0 ≤ w.val)

/-- The `f32` default used for missing table entries
(`unwrap_or_default() = 0.0`). -/
def F32.zero : F32 := ⟨false, 0⟩

/-- Modelled from the spec's randomness boundary: the scan loop of
`WeightedIndex::new` in the `rand` crate.  Each weight `w` failing
`w >= 0` aborts with `InvalidWeight`; otherwise the running total so far is
recorded and the total advanced; an exactly-zero final total aborts with
`AllWeightsZero`, else the recorded cumulative totals and the final total
are returned. -/
def cumWeights : ℚ → List ℚ → List F32 → Except WeightedError (List ℚ × ℚ)
  | total, acc, [] =>
    if total = 0 then .error .AllWeightsZero else .ok (acc.reverse, total)
  | total, acc, w :: ws =>
    if w.ge0 then cumWeights (total + w.val) (total :: acc) ws
    else .error .InvalidWeight

/-- Modelled from the spec's randomness boundary: `WeightedIndex::new` — an
empty weight sequence is `NoItem`, the first weight is checked and used to
seed the running total, and the rest are scanned by `cumWeights`. -/
def weightedIndexNew : List F32 → Except WeightedError (List ℚ × ℚ)
  | [] => .error .NoItem
  | w0 :: rest =>
    if w0.ge0 then cumWeights w0.val [] rest else .error .InvalidWeight

/-- The `HashMap` lookup of `TerrainType::choose_random`:
`weights.get(t).copied().unwrap_or_default()`. -/
def effectiveWeight (weights : TerrainType → Option F32) (t : TerrainType) :
    F32 :=
  (weights t).getD F32.zero

/-- Embeds `TerrainType::choose_random` from `terrain/mod.rs` together with
the `rand` machinery it calls (modelled from the spec's randomness
boundary): the variants are enumerated in declaration order, each weight is
looked up with default `0.0`, a `WeightedIndex` is built over them, and the
uniform draw `x` from `[0, total)` selects the variant at the partition
point of the sorted cumulative list (the count of stored totals that are at
most `x`).  `none` models an out-of-range index panic, proved unreachable
below. -/
def choose_random (weights : TerrainType → Option F32) (x : ℚ) :
    Option (Except WeightedError TerrainType) :=
  match weightedIndexNew (TerrainType.variants.map (effectiveWeight weights))
    with
  | .error e => some (.error e)
  | .ok (cum, _) =>
    match TerrainType.variants.get? (cum.countP fun c => decide (c ≤ x)) with
    | some t => some (.ok t)
    | none => none

/-- Weight table assigning `1.0` to Plain and `0.0` to the others. -/
def plainOnlyWeights : TerrainType → Option F32
  | .Plain => some ⟨false, 1⟩
  | .Impassable => some ⟨false, 0⟩
  | .High => some ⟨false, 0⟩

/-- Weight table assigning `-1.0` to every variant. -/
def allNegativeWeights : TerrainType → Option F32 :=
  fun _ => some ⟨false, -1⟩

/-- C6 counterexample: a table in which every variant's weight is negative
(hence "0 or negative") is rejected as `InvalidWeight`, not as the
`AllWeightsZero` error the claim requires for such tables. -/
theorem choose_random_cex :
    choose_random allNegativeWeights 0
        = some (.error WeightedError.InvalidWeight) ∧
    WeightedError.InvalidWeight ≠ WeightedError.AllWeightsZero :=
  ⟨rfl, by decide⟩

/-- C6 amended: for every draw `x` in `[0, 1)`, `choose_random` with weights
`{Plain: 1.0, Impassable: 0.0, High: 0.0}` returns `Ok(Plain)`; when every
variant's effective weight is exactly `0.0` (including an empty mapping,
since missing weights default to 0) it returns the `AllWeightsZero` error;
and when any effective weight is negative or NaN it returns the
`InvalidWeight` error (which therefore takes precedence over
`AllWeightsZero` on all-negative tables). -/
theorem choose_random_spec :
    (∀ x : ℚ, 0 ≤ x → x < 1 →
      choose_random plainOnlyWeights x = some (.ok TerrainType.Plain)) ∧
    (∀ (w : TerrainType → Option F32) (x : ℚ),
      (∀ t, effectiveWeight w t = F32.zero) →
      choose_random w x = some (.error WeightedError.AllWeightsZero)) ∧
    (∀ (w : TerrainType → Option F32) (x : ℚ),
      (∃ t, (effectiveWeight w t).ge0 = false) →
      choose_random w x = some (.error WeightedError.InvalidWeight)) := by
  have hz : F32.ge0 ⟨false, 0⟩ = true := by norm_num [F32.ge0]
  refine ⟨?_, ?_, ?_⟩
  · intro x hx0 hx1
    have h1 : ¬ ((1 : ℚ) ≤ x) := not_le.mpr hx1
    have h10 : F32.ge0 ⟨false, 1⟩ = true := by norm_num [F32.ge0]
    have hmap : TerrainType.variants.map (effectiveWeight plainOnlyWeights)
        = [⟨false, 1⟩, F32.zero, F32.zero] := by
      simp [TerrainType.variants, effectiveWeight, plainOnlyWeights, F32.zero]
    have hwi : weightedIndexNew [⟨false, 1⟩, F32.zero, F32.zero]
        = .ok ([1, 1], (1 : ℚ)) := by
      simp [weightedIndexNew, cumWeights, h10, hz, F32.zero]
    unfold choose_random
    rw [hmap, hwi]
    simp only [List.countP_cons, List.countP_nil, decide_eq_false h1,
      Bool.false_eq_true, if_false, Nat.zero_add]
    rfl
  · intro w x hzero
    have hws : TerrainType.variants.map (effectiveWeight w)
        = [F32.zero, F32.zero, F32.zero] := by
      simp [TerrainType.variants, hzero]
    have hwi : weightedIndexNew [F32.zero, F32.zero, F32.zero]
        = .error .AllWeightsZero := by
      simp [weightedIndexNew, cumWeights, hz, F32.zero]
    unfold choose_random
    rw [hws, hwi]
  · rintro w x ⟨t, ht⟩
    have hws : TerrainType.variants.map (effectiveWeight w)
        = [effectiveWeight w .Plain, effectiveWeight w .Impassable,
           effectiveWeight w .High] := rfl
    unfold choose_random
    rw [hws]
    cases h0 : (effectiveWeight w .Plain).ge0 with
    | false => simp [weightedIndexNew, h0]
    | true =>
      cases h1 : (effectiveWeight w .Impassable).ge0 with
      | false => simp [weightedIndexNew, cumWeights, h0, h1]
      | true =>
        cases h2 : (effectiveWeight w .High).ge0 with
        | false => simp [weightedIndexNew, cumWeights, h0, h1, h2]
        | true => cases t <;> simp_all

/-- C6 witness: the three amended clauses instantiated at the draw `x = 0`,
with the all-zero clause instantiated at the empty mapping. -/
theorem choose_random_spec_witness :
    choose_random plainOnlyWeights 0 = some (.ok TerrainType.Plain) ∧
    choose_random (fun _ => none) 0
        = some (.error WeightedError.AllWeightsZero) ∧
    choose_random allNegativeWeights 0
        = some (.error WeightedError.InvalidWeight) :=
  ⟨choose_random_spec.1 0 (by norm_num) (by norm_num),
   choose_random_spec.2.1 (fun _ => none) 0 (fun _ => rfl),
   choose_random_spec.2.2 allNegativeWeights 0 ⟨TerrainType.Plain, rfl⟩⟩

/-- Flag: some effective weight of the table fails the `w >= 0` check
(negative or NaN). -/
def hasInvalidWeight (w : TerrainType → Option F32) : Bool :=
  (TerrainType.variants.map (effectiveWeight w)).any fun e => ! e.ge0

/-- The total weight of the table, as summed by `WeightedIndex::new`. -/
def totalWeight (w : TerrainType → Option F32) : ℚ :=
  ((TerrainType.variants.map (effectiveWeight w)).map F32.val).sum

/-- When `WeightedIndex::new` succeeds with a cumulative list of length two,
the selected index is always in range and `choose_random` returns `Ok` of
some variant. -/
theorem choose_random_ok_eval (w : TerrainType → Option F32) (x : ℚ)
    (L : List ℚ) (T : ℚ)
    (hwi : weightedIndexNew (TerrainType.variants.map (effectiveWeight w))
      = .ok (L, T)) (hL : L.length = 2) :
    ∃ t, choose_random w x = some (.ok t) := by
  unfold choose_random
  rw [hwi]
  show ∃ t, (match TerrainType.variants.get?
      (L.countP fun c => decide (c ≤ x)) with
    | some t2 => some (Except.ok t2)
    | none => none) = some (Except.ok t)
  rcases hget : TerrainType.variants.get? (L.countP fun c => decide (c ≤ x))
    with _ | t
  · exfalso
    have hb : L.countP (fun c => decide (c ≤ x)) ≤ L.length :=
      List.countP_le_length (fun c => decide (c ≤ x))
    have h3 : TerrainType.variants.length
        ≤ L.countP (fun c => decide (c ≤ x)) :=
      List.get?_eq_none.mp hget
    simp only [TerrainType.variants, List.length_cons, List.length_nil] at h3
    omega
  · exact ⟨t, rfl⟩

/-- C10: `choose_random` is total — for every weights table (zero, negative
or NaN weights included) and every draw it returns a `Result` value and
never hits the out-of-range panic modelled by `none`; invalid weights
produce the `InvalidWeight` error, an all-valid table of zero total produces
the `AllWeightsZero` error, and every other table yields `Ok` of some
variant. -/
theorem choose_random_total (w : TerrainType → Option F32) (x : ℚ) :
    (choose_random w x).isSome = true ∧
    (hasInvalidWeight w = true →
      choose_random w x = some (.error WeightedError.InvalidWeight)) ∧
    (hasInvalidWeight w = false → totalWeight w = 0 →
      choose_random w x = some (.error WeightedError.AllWeightsZero)) ∧
    (hasInvalidWeight w = false → totalWeight w ≠ 0 →
      ∃ t, choose_random w x = some (.ok t)) := by
  have hws : TerrainType.variants.map (effectiveWeight w)
      = [effectiveWeight w .Plain, effectiveWeight w .Impassable,
         effectiveWeight w .High] := rfl
  cases h0 : (effectiveWeight w TerrainType.Plain).ge0 with
  | false =>
    have hinv : hasInvalidWeight w = true := by
      simp [hasInvalidWeight, TerrainType.variants, h0]
    have heval : choose_random w x
        = some (.error WeightedError.InvalidWeight) := by
      unfold choose_random
      rw [hws]
      simp [weightedIndexNew, h0]
    refine ⟨by rw [heval]; rfl, fun _ => heval, ?_, ?_⟩ <;>
      (intro hc; rw [hinv] at hc; cases hc)
  | true =>
    cases h1 : (effectiveWeight w TerrainType.Impassable).ge0 with
    | false =>
      have hinv : hasInvalidWeight w = true := by
        simp [hasInvalidWeight, TerrainType.variants, h1]
      have heval : choose_random w x
          = some (.error WeightedError.InvalidWeight) := by
        unfold choose_random
        rw [hws]
        simp [weightedIndexNew, cumWeights, h0, h1]
      refine ⟨by rw [heval]; rfl, fun _ => heval, ?_, ?_⟩ <;>
        (intro hc; rw [hinv] at hc; cases hc)
    | true =>
      cases h2 : (effectiveWeight w TerrainType.High).ge0 with
      | false =>
        have hinv : hasInvalidWeight w = true := by
          simp [hasInvalidWeight, TerrainType.variants, h2]
        have heval : choose_random w x
            = some (.error WeightedError.InvalidWeight) := by
          unfold choose_random
          rw [hws]
          simp [weightedIndexNew, cumWeights, h0, h1, h2]
        refine ⟨by rw [heval]; rfl, fun _ => heval, ?_, ?_⟩ <;>
          (intro hc; rw [hinv] at hc; cases hc)
      | true =>
        have hval : hasInvalidWeight w = false := by
          simp [hasInvalidWeight, TerrainType.variants, h0, h1, h2]
        have htot : totalWeight w = (effectiveWeight w TerrainType.Plain).val
            + (effectiveWeight w TerrainType.Impassable).val
            + (effectiveWeight w TerrainType.High).val := by
          simp [totalWeight, TerrainType.variants]
          ring
        have hwieval : weightedIndexNew
            [effectiveWeight w .Plain, effectiveWeight w .Impassable,
             effectiveWeight w .High]
            = if (effectiveWeight w TerrainType.Plain).val
                + (effectiveWeight w TerrainType.Impassable).val
                + (effectiveWeight w TerrainType.High).val = 0
              then .error .AllWeightsZero
              else .ok ([(effectiveWeight w TerrainType.Plain).val,
                (effectiveWeight w TerrainType.Plain).val
                  + (effectiveWeight w TerrainType.Impassable).val],
                (effectiveWeight w TerrainType.Plain).val
                  + (effectiveWeight w TerrainType.Impassable).val
                  + (effectiveWeight w TerrainType.High).val) := by
          simp [weightedIndexNew, cumWeights, h0, h1, h2]
        by_cases hz : totalWeight w = 0
        · have heval : choose_random w x
              = some (.error WeightedError.AllWeightsZero) := by
            unfold choose_random
            rw [hws, hwieval, if_pos (htot ▸ hz)]
          refine ⟨by rw [heval]; rfl, ?_, fun _ _ => heval, ?_⟩
          · intro hc; rw [hval] at hc; cases hc
          · intro _ hc; exact absurd hz hc
        · have hne : ¬ ((effectiveWeight w TerrainType.Plain).val
              + (effectiveWeight w TerrainType.Impassable).val
              + (effectiveWeight w TerrainType.High).val = 0) := htot ▸ hz
          have hok : ∃ t, choose_random w x = some (.ok t) :=
            choose_random_ok_eval w x
              [(effectiveWeight w TerrainType.Plain).val,
               (effectiveWeight w TerrainType.Plain).val
                 + (effectiveWeight w TerrainType.Impassable).val]
              ((effectiveWeight w TerrainType.Plain).val
                 + (effectiveWeight w TerrainType.Impassable).val
                 + (effectiveWeight w TerrainType.High).val)
              (by rw [hws, hwieval]; exact if_neg hne) rfl
          obtain ⟨t, ht⟩ := hok
          refine ⟨by rw [ht]; rfl, ?_, ?_, fun _ _ => ⟨t, ht⟩⟩
          · intro hc; rw [hval] at hc; cases hc
          · intro _ hc; exact absurd hc hz

/-- C10 witness: totality evaluated at the Plain-only table and the
invalid-weight branch evaluated at the all-negative table, both at the draw
`x = 0`. -/
theorem choose_random_total_witness :
    (choose_random plainOnlyWeights 0).isSome = true ∧
    choose_random allNegativeWeights 0
        = some (.error WeightedError.InvalidWeight) :=
  ⟨(choose_random_total plainOnlyWeights 0).1,
   (choose_random_total allNegativeWeights 0).2.1 rfl⟩
